import Mathlib

/-!
Verification of the fingerprint store and two-stage matching engine of the
Visual-Recognition repository (`src/src/database_manager.py`,
`src/visrec/recognizer.py`, `src/visrec/models.py`) against its
natural-language specification.

Modelling conventions:

* SQLite tables are modelled as Lean lists kept in insertion (rowid) order;
  `AUTOINCREMENT` ids are modelled by explicit counters in the `DB` record.
* The 64-bit perceptual hash (a 16-hex-digit string in the source, compared
  through `bin(int(h,16))[2:].zfill(64)`) is modelled by its numeric value,
  a natural number below `2 ^ 64`; the source's per-character comparison of
  the two zero-filled binary strings is then exactly the popcount of the
  bitwise xor.
* CNN feature vectors (`np.float32` buffers) are modelled as `List ℚ`;
  float rounding is idealised away, as the specification does.
* A cosine similarity value `s = uv / √(uu·vv)` is a quadratic irrational,
  so similarity values are represented exactly in `ℚ` through the strictly
  monotone bijection `x ↦ sign x * x ^ 2` (see `simEnc`); a similarity
  value `v` of the source corresponds to the model value `simEnc v`, and
  every comparison (sorting, thresholding) is preserved by the bijection.
  `decodeSim` recovers the real value and `cosineSimEnc_spec` proves the
  representation correct against the textbook formula.
* `scipy.spatial.distance.cosine` on a zero-magnitude vector computes
  `0.0 / 0.0 = NaN`; a NaN similarity is modelled as `⊥ : WithBot ℚ`.
  In the source every NaN fails the `>=` threshold test, which `⊥` also
  does.
* Python's `list.sort(key=...)` (Timsort) on NaN-free float keys is a
  stable sort (`<` on such keys is a strict total order); it is modelled
  by `List.insertionSort`, which is stable with the same insertion
  discipline, and `sort(..., reverse=True)` keeps equal keys in original
  order, modelled by sorting with the reversed relation.  With a NaN among
  the keys, every `<` comparison involving it is `False` and CPython's
  Timsort is not a sort at all — it can return even the real-keyed entries
  out of order — so the model does not pretend to an order there: when any
  similarity is `⊥`, `verify_with_cnn` leaves the list in candidate order
  as an explicit stand-in, and no theorem states an order guarantee for
  that branch.
* Database exceptions (the `cursor.fetchone()[0]` crash on a missing media
  row in `verify_with_cnn`) are modelled by an `Option` result: `none` is
  an uncaught exception, `some` a normal return.
* Reading a frame from a video or image is external (`cv2`); a sampled
  frame is represented by the query fingerprint extracted from it, and a
  failed read (`ret == False`, or `cv2.imread` returning `None`) by
  `Option.none`.  Wall-clock `processing_time_ms` is not modelled.
-/

/-- Embedding of `FingerprintDatabase.hamming_distance`: both hex hashes are
converted to 64-bit zero-filled binary strings and differing positions are
counted, which for values below `2 ^ 64` is the number of the 64 bit
positions at which the xor has a 1-bit. -/
def hamming_distance (hash1 hash2 : Nat) : Nat :=
  ((List.range 64).map fun i => ((hash1 ^^^ hash2) >>> i) % 2).sum

/-- Strictly monotone bijection `x ↦ sign x * x ^ 2` used to represent the
(quadratically irrational) cosine similarity values exactly in `ℚ`:
a similarity value `v` of the source is represented by `simEnc v`. -/
def simEnc (x : ℚ) : ℚ := if x < 0 then -(x ^ 2) else x ^ 2

/-- Dot product of two rational vectors (`np.dot` on the idealised
feature vectors). -/
def dotQ (u v : List ℚ) : ℚ := (List.zipWith (· * ·) u v).sum

/-- Embedding of `1 - scipy.spatial.distance.cosine(query, stored)` as
computed in `verify_with_cnn`, in the `simEnc` representation: the real
value is `uv / √(uu·vv)`, represented by `sign uv * uv ^ 2 / (uu·vv)`;
when either vector has zero magnitude the source computes `0.0 / 0.0 = NaN`,
modelled as `⊥`. -/
def cosineSimEnc (u v : List ℚ) : WithBot ℚ :=
  if dotQ u u * dotQ v v = 0 then ⊥
  else ((if dotQ u v < 0 then -(dotQ u v ^ 2 / (dotQ u u * dotQ v v))
         else dotQ u v ^ 2 / (dotQ u u * dotQ v v) : ℚ) : WithBot ℚ)

/-- Decoding of the `simEnc` representation back to the real similarity
value: `decodeSim (simEnc v) = v`. -/
noncomputable def decodeSim (e : ℚ) : ℝ :=
  if e < 0 then -Real.sqrt (-(e : ℝ)) else Real.sqrt (e : ℝ)

/-- Magnitude of a feature vector, as the specification words it
(square root of the dot product with itself). -/
noncomputable def magR (v : List ℚ) : ℝ := Real.sqrt ((dotQ v v : ℚ) : ℝ)

/-- Modelled from the spec: the Stage-2 similarity as §4.3 words it —
dot product divided by the product of magnitudes, defined as 0 if either
vector has zero magnitude.  Used to compare the source's similarity
against the specified one. -/
noncomputable def specCosineSim (u v : List ℚ) : ℝ :=
  if magR u = 0 ∨ magR v = 0 then 0
  else ((dotQ u v : ℚ) : ℝ) / (magR u * magR v)

/-- Row of the `media` table. -/
structure Media where
  id : Nat
  title : String
  year : Option Int
  duration : Option ℚ
  total_frames : Option Nat
deriving DecidableEq, Repr

/-- Row of the `fingerprints` table. -/
structure Fingerprint where
  id : Nat
  media_id : Nat
  timestamp : ℚ
  frame_index : Nat
  phash : Nat
  features : List ℚ
deriving DecidableEq, Repr

/-- State of the SQLite store managed by `FingerprintDatabase`: both tables
in rowid order, plus the `AUTOINCREMENT` counters. -/
structure DB where
  media : List Media
  fingerprints : List Fingerprint
  next_media_id : Nat
  next_fp_id : Nat
deriving DecidableEq, Repr

/-- Freshly created database (`create_tables` on a new file). -/
def emptyDB : DB := ⟨[], [], 1, 1⟩

/-- Embedding of `FingerprintDatabase.add_media`: inserts one `media` row
and returns the assigned id. -/
def add_media (db : DB) (title : String) (year : Option Int)
    (duration : Option ℚ) (total_frames : Option Nat) : DB × Nat :=
  ({ db with
      media := db.media ++ [⟨db.next_media_id, title, year, duration, total_frames⟩]
      next_media_id := db.next_media_id + 1 },
    db.next_media_id)

/-- Rows inserted by the `for idx, (timestamp, phash, cnn_features) in
enumerate(fingerprints)` loop of `add_fingerprints`, starting at rowid
`base` and enumeration index `idx`. -/
def fingerprintRows (base media_id idx : Nat) :
    List (ℚ × Nat × List ℚ) → List Fingerprint
  | [] => []
  | (ts, ph, fv) :: rest =>
    { id := base, media_id := media_id, timestamp := ts, frame_index := idx
      phash := ph, features := fv } :: fingerprintRows (base + 1) media_id (idx + 1) rest

/-- Embedding of `FingerprintDatabase.add_fingerprints`: every
`(timestamp, phash, cnn_features)` triple of the batch is inserted, with
`frame_index` running from 0 in batch order; no validation is performed. -/
def add_fingerprints (db : DB) (media_id : Nat)
    (fingerprints : List (ℚ × Nat × List ℚ)) : DB :=
  { db with
    fingerprints := db.fingerprints ++ fingerprintRows db.next_fp_id media_id 0 fingerprints
    next_fp_id := db.next_fp_id + fingerprints.length }

/-- Embedding of `FingerprintDatabase.search_by_phash` (Stage 1): scan all
fingerprint rows in rowid order, keep those within `max_distance`, sort
stably by Hamming distance, truncate to `limit`. -/
def search_by_phash (db : DB) (query_hash : Nat) (max_distance : Nat)
    (limit : Nat) : List Fingerprint :=
  ((db.fingerprints.filter fun f =>
      decide (hamming_distance query_hash f.phash ≤ max_distance)).insertionSort
    (fun a b =>
      hamming_distance query_hash a.phash ≤ hamming_distance query_hash b.phash)).take
    limit

/-- Lookup of `SELECT title FROM media WHERE id = ?` (first matching row). -/
def getTitle (db : DB) (media_id : Nat) : Option String :=
  (db.media.find? fun m => m.id == media_id).map fun m => m.title

/-- Embedding of `VisualRecognizer._get_year`: `None` both for a missing
media row and for a `NULL` year. -/
def getYear (db : DB) (media_id : Nat) : Option Int :=
  (db.media.find? fun m => m.id == media_id).bind fun m => m.year

/-- One element of the list returned by `verify_with_cnn`:
`(media_id, title, timestamp, similarity)`. -/
structure FrameMatch where
  media_id : Nat
  title : String
  timestamp : ℚ
  sim : WithBot ℚ
deriving DecidableEq, Repr

/-- Scoring of a single Stage-1 candidate inside `verify_with_cnn`:
cosine similarity against the query vector, together with the title lookup
(`cursor.fetchone()[0]`, which raises — `none` — if the media row is
missing). -/
def scoreCandidate (db : DB) (query_features : List ℚ) (c : Fingerprint) :
    Option FrameMatch :=
  (getTitle db c.media_id).map fun t =>
    { media_id := c.media_id
      title := t
      timestamp := c.timestamp
      sim := cosineSimEnc query_features c.features }

/-- Sort relation of `results.sort(key=lambda x: x[3], reverse=True)`:
descending by similarity, equal keys kept in original order by stability. -/
def simDescLe (a b : FrameMatch) : Prop := b.sim ≤ a.sim

instance : DecidableRel simDescLe := fun a b =>
  inferInstanceAs (Decidable (b.sim ≤ a.sim))

/-- Scoring loop of `verify_with_cnn`: one `FrameMatch` per candidate, in
candidate order; `none` propagates the title-lookup exception. -/
def scoreAll (db : DB) (query_features : List ℚ) :
    List Fingerprint → Option (List FrameMatch)
  | [] => some []
  | c :: cs => do
    let m ← scoreCandidate db query_features c
    let ms ← scoreAll db query_features cs
    some (m :: ms)

/-- Embedding of `FingerprintDatabase.verify_with_cnn` (Stage 2): score
every candidate in order, then `results.sort(key=lambda x: x[3],
reverse=True)`.  No similarity floor is applied here.  On NaN-free keys
the sort is Timsort, i.e. a stable descending sort, modelled by
`insertionSort`; with a NaN (`⊥`) among the keys Timsort's output order is
not specified (it need not be sorted even among the real-keyed entries),
so the model keeps candidate order as an explicit stand-in and nothing is
proved about the order of that branch. -/
def verify_with_cnn (db : DB) (candidates : List Fingerprint)
    (query_features : List ℚ) : Option (List FrameMatch) :=
  (scoreAll db query_features candidates).map fun results =>
    if results.any fun m => decide (m.sim = ⊥) then results
    else results.insertionSort simDescLe

/-- Query fingerprint extracted from one frame (the extractor itself is an
external collaborator, so a frame is represented by its extraction). -/
structure QueryFP where
  phash : Nat
  features : List ℚ
deriving DecidableEq, Repr

/-- Embedding of `VisualRecognizer._match_frame`: Stage-1 search with
`limit=50`, Stage-2 verification, floor `cnn_threshold`, first survivor.
The outer `Option` is exception propagation from `verify_with_cnn`; the
inner `Option` is the no-match result. -/
def matchFrame (db : DB) (phash_threshold : Nat) (cnn_threshold : ℚ)
    (q : QueryFP) : Option (Option FrameMatch) :=
  let candidates := search_by_phash db q.phash phash_threshold 50
  if candidates.isEmpty then some none
  else
    (verify_with_cnn db candidates q.features).map fun ms =>
      (ms.filter fun m =>
        decide (((simEnc cnn_threshold : ℚ) : WithBot ℚ) ≤ m.sim)).head?

/-- Match-type tiers of `visrec/models.py`. -/
inductive MatchType where
  | strong
  | probable
  | weak
  | none
deriving DecidableEq, Repr

/-- Embedding of `_get_match_type` (thresholds 0.95 / 0.80 / 0.70,
compared in the `simEnc` representation). -/
def get_match_type (s : WithBot ℚ) : MatchType :=
  if ((simEnc (95 / 100) : ℚ) : WithBot ℚ) ≤ s then MatchType.strong
  else if ((simEnc (80 / 100) : ℚ) : WithBot ℚ) ≤ s then MatchType.probable
  else if ((simEnc (70 / 100) : ℚ) : WithBot ℚ) ≤ s then MatchType.weak
  else MatchType.none

/-- Embedding of the `RecognitionResult` dataclass (without the wall-clock
`processing_time_ms` field, which is set by the outer `identify`). -/
structure RecognitionResult where
  matched : Bool
  title : Option String := Option.none
  year : Option Int := Option.none
  timestamp : Option ℚ := Option.none
  confidence : Option (WithBot ℚ) := Option.none
  match_type : MatchType := MatchType.none
  stage1_candidates : Nat := 0
  stage2_candidates : Nat := 0
  frames_sampled : Nat := 0
  frames_matched : Nat := 0
deriving DecidableEq, Repr

/-- Occurrence count of one title among the frame matches
(`Counter(m[1] for m in all_matches)[t]`). -/
def countTitle (ms : List FrameMatch) (t : String) : Nat :=
  ms.countP fun m => m.title == t

/-- First-occurrence deduplication: the iteration order of the keys of a
Python `Counter` (a `dict` ordered by first insertion). -/
def dedupFirst : List String → List String
  | [] => []
  | t :: ts => t :: dedupFirst (ts.filter fun s => s != t)
termination_by l => l.length
decreasing_by exact Nat.lt_succ_of_le (List.length_filter_le _ _)

/-- Titles of the frame matches in first-occurrence order: the key order of
`Counter(m[1] for m in all_matches)`. -/
def titlesInOrder (ms : List FrameMatch) : List String :=
  dedupFirst (ms.map fun m => m.title)

/-- Embedding of Python's `max(iterable, key=key)`: fold keeping the
current maximum, replacing it only on a strictly greater key, so the first
element attaining the maximum wins. -/
def pyFoldMax {α β : Type} [LinearOrder β] (key : α → β) (x : α)
    (xs : List α) : α :=
  xs.foldl (fun acc y => if key acc < key y then y else acc) x

/-- Embedding of `title_votes.most_common(1)[0][0]`: `Counter.most_common(1)`
is `heapq.nlargest(1, items, key=count)`, which is `max` over the items in
key-insertion order — the first title attaining the maximal vote count.
The `""` branch mirrors the `IndexError` that cannot occur because the
caller guards on `all_matches` being non-empty. -/
def winningTitle (ms : List FrameMatch) : String :=
  match titlesInOrder ms with
  | [] => ""
  | t :: ts => pyFoldMax (countTitle ms) t ts

/-- Embedding of `max(title_matches, key=lambda x: x[3])` over the matches
of the winning title; `none` mirrors the `ValueError` on an empty list,
which cannot occur for the winning title. -/
def bestForTitle (ms : List FrameMatch) (w : String) : Option FrameMatch :=
  match ms.filter (fun m => m.title == w) with
  | [] => Option.none
  | m :: rest => some (pyFoldMax (fun fm => fm.sim) m rest)

/-- Embedding of the aggregation part of `VisualRecognizer._identify_video`
(source lines 166-188): vote, representative match, result construction.
`total_stage1` is the accumulator that the source initialises to 0 and
never updates. -/
def aggregate (db : DB) (sample_frames total_stage1 total_stage2 : Nat)
    (all_matches : List FrameMatch) : RecognitionResult :=
  match bestForTitle all_matches (winningTitle all_matches) with
  | Option.none => { matched := false }
  | some best =>
    { matched := true
      title := some best.title
      year := getYear db best.media_id
      timestamp := some best.timestamp
      confidence := some best.sim
      match_type := get_match_type best.sim
      frames_sampled := sample_frames
      frames_matched := all_matches.length
      stage1_candidates := total_stage1
      stage2_candidates := total_stage2 }

/-- Embedding of the per-frame loop of `_identify_video` (source lines
143-156): frames that fail to read are skipped, each readable frame is
matched, matches are collected in frame order and `total_stage2` is
incremented once per matching frame.  `none` propagates an exception from
`_match_frame`. -/
def videoLoop (db : DB) (phash_threshold : Nat) (cnn_threshold : ℚ) :
    List (Option QueryFP) → Option (List FrameMatch × Nat)
  | [] => some ([], 0)
  | Option.none :: rest => videoLoop db phash_threshold cnn_threshold rest
  | some q :: rest => do
    let mo ← matchFrame db phash_threshold cnn_threshold q
    let r ← videoLoop db phash_threshold cnn_threshold rest
    match mo with
    | some m => some (m :: r.1, r.2 + 1)
    | Option.none => some r

/-- Embedding of `VisualRecognizer._identify_video`.  The video argument is
`none` if `cv2.VideoCapture` failed to open the file, otherwise the list of
per-sampled-frame read results (one entry per index of
`np.linspace(0, total_frames - 1, sample_frames)`). -/
def identifyVideo (db : DB) (phash_threshold : Nat) (cnn_threshold : ℚ)
    (video : Option (List (Option QueryFP))) (sample_frames : Nat) :
    Option RecognitionResult :=
  match video with
  | Option.none => some { matched := false }
  | some frames =>
    (videoLoop db phash_threshold cnn_threshold frames).map fun r =>
      if r.1.isEmpty then
        { matched := false, frames_sampled := sample_frames, frames_matched := 0 }
      else aggregate db sample_frames 0 r.2 r.1

/-- Embedding of `VisualRecognizer._identify_image`.  The image argument is
`none` if `cv2.imread` returned `None`. -/
def identifyImage (db : DB) (phash_threshold : Nat) (cnn_threshold : ℚ)
    (image : Option QueryFP) : Option RecognitionResult :=
  match image with
  | Option.none => some { matched := false }
  | some q =>
    (matchFrame db phash_threshold cnn_threshold q).map fun mo =>
      match mo with
      | Option.none => { matched := false, frames_sampled := 1, frames_matched := 0 }
      | some m =>
        { matched := true
          title := some m.title
          year := getYear db m.media_id
          timestamp := some m.timestamp
          confidence := some m.sim
          match_type := get_match_type m.sim
          frames_sampled := 1
          frames_matched := 1 }

/-! ### Specification-side definitions

These definitions follow the wording of the specification (not the
source); the claims compare the embedded source against them. -/

/-- Modelled from the spec: the Stage-1 result order of §4.2 — ascending
by Hamming distance, ties broken by ascending `fingerprint_id`. -/
def stage1SpecLe (query_hash : Nat) (a b : Fingerprint) : Prop :=
  hamming_distance query_hash a.phash < hamming_distance query_hash b.phash ∨
    (hamming_distance query_hash a.phash = hamming_distance query_hash b.phash ∧
      a.id ≤ b.id)

instance (query_hash : Nat) : DecidableRel (stage1SpecLe query_hash) := fun a b =>
  inferInstanceAs (Decidable (_ ∨ (_ ∧ _)))

/-- Strict version of `stage1SpecLe`, linear on rows with distinct ids. -/
def stage1SpecLt (query_hash : Nat) (a b : Fingerprint) : Prop :=
  hamming_distance query_hash a.phash < hamming_distance query_hash b.phash ∨
    (hamming_distance query_hash a.phash = hamming_distance query_hash b.phash ∧
      a.id < b.id)

/-- Modelled from the spec: the Stage-1 search contract of §4.2 — keep the
stored fingerprints within `max_distance`, sort by distance with ties by
ascending id, truncate to `limit`. -/
def specSearch (db : DB) (query_hash : Nat) (max_distance : Nat)
    (limit : Nat) : List Fingerprint :=
  ((db.fingerprints.filter fun f =>
      decide (hamming_distance query_hash f.phash ≤ max_distance)).insertionSort
    (stage1SpecLe query_hash)).take limit

/-- Modelled from the spec: the Stage-2 result order of §4.3 — descending
by similarity, ties broken by ascending `fingerprint_id` (the id travels
alongside the scored match). -/
def stage2SpecLe (a b : Nat × FrameMatch) : Prop :=
  b.2.sim < a.2.sim ∨ (a.2.sim = b.2.sim ∧ a.1 ≤ b.1)

instance : DecidableRel stage2SpecLe := fun a b =>
  inferInstanceAs (Decidable (_ ∨ (_ ∧ _)))

/-- Modelled from the spec: Stage-2 verification ordered as §4.3 demands —
same per-candidate scores as the source, but sorted descending by
similarity with ties broken by ascending fingerprint id. -/
def specVerifySorted (db : DB) (candidates : List Fingerprint)
    (query_features : List ℚ) : Option (List FrameMatch) :=
  (scoreAll db query_features candidates).map fun results =>
    (((candidates.map fun c => c.id).zip results).insertionSort stage2SpecLe).map
      fun p => p.2

/-- Stage-1 candidate count of one sampled frame (length of the Stage-1
result for that frame, as §4.5 step 6 words it). -/
def specStage1Count (db : DB) (phash_threshold : Nat) (q : QueryFP) : Nat :=
  (search_by_phash db q.phash phash_threshold 50).length

/-- Stage-2 surviving-match count of one sampled frame (number of verified
matches at or above the similarity floor, as §4.5 step 6 words it). -/
def specStage2Count (db : DB) (phash_threshold : Nat) (cnn_threshold : ℚ)
    (q : QueryFP) : Nat :=
  ((verify_with_cnn db (search_by_phash db q.phash phash_threshold 50)
      q.features).map fun ms =>
    (ms.filter fun m =>
      decide (((simEnc cnn_threshold : ℚ) : WithBot ℚ) ≤ m.sim)).length).getD 0

/-- Sum of the per-frame Stage-1 candidate counts over all sampled frames
(unreadable frames contribute nothing). -/
def specStage1Sum (db : DB) (phash_threshold : Nat)
    (frames : List (Option QueryFP)) : Nat :=
  (frames.map fun o => (o.map (specStage1Count db phash_threshold)).getD 0).sum

/-- Sum of the per-frame Stage-2 surviving-match counts over all sampled
frames. -/
def specStage2Sum (db : DB) (phash_threshold : Nat) (cnn_threshold : ℚ)
    (frames : List (Option QueryFP)) : Nat :=
  (frames.map fun o =>
    (o.map (specStage2Count db phash_threshold cnn_threshold)).getD 0).sum

/-! ### Helper lemmas -/

theorem dotQ_self_nonneg (v : List ℚ) : 0 ≤ dotQ v v := by
  unfold dotQ
  induction v with
  | nil => simp
  | cons x xs ih =>
    simp only [List.zipWith_cons_cons, List.sum_cons]
    exact add_nonneg (mul_self_nonneg x) ih

theorem scoreAll_length (db : DB) (qf : List ℚ) :
    ∀ cs rs, scoreAll db qf cs = some rs → rs.length = cs.length := by
  intro cs
  induction cs with
  | nil => intro rs h; simp [scoreAll] at h; simp [← h]
  | cons c cs ih =>
    intro rs h
    simp only [scoreAll, Option.bind_eq_bind, Option.bind_eq_some] at h
    obtain ⟨m, _, ms, hms, hcons⟩ := h
    simp only [Option.some_inj] at hcons
    subst hcons
    simp [ih ms hms]

theorem videoLoop_no_match (db : DB) (pt : Nat) (ct : ℚ) :
    ∀ frames : List (Option QueryFP),
      (∀ o ∈ frames, ∀ q, o = some q → matchFrame db pt ct q = some Option.none) →
      videoLoop db pt ct frames = some ([], 0) := by
  intro frames
  induction frames with
  | nil => intro _; rfl
  | cons o rest ih =>
    intro h
    match o with
    | Option.none =>
      exact (ih fun o ho q hq => h o (List.mem_cons_of_mem _ ho) q hq)
    | some q =>
      have hq := h (some q) (List.mem_cons_self _ _) q rfl
      simp only [videoLoop, hq, Option.bind_eq_bind, Option.some_bind,
        ih fun o ho q hq => h o (List.mem_cons_of_mem _ ho) q hq]

theorem mem_dedupFirst : ∀ (l : List String) (a : String), a ∈ dedupFirst l ↔ a ∈ l
  | [], a => by simp [dedupFirst]
  | t :: ts, a => by
    rw [dedupFirst]
    by_cases hat : a = t
    · subst hat; simp
    · simp only [List.mem_cons, hat, false_or]
      rw [mem_dedupFirst (ts.filter fun s => s != t) a, List.mem_filter]
      simp [hat]
termination_by l => l.length
decreasing_by exact Nat.lt_succ_of_le (List.length_filter_le _ _)

theorem pyFoldMax_mem {α β : Type} [LinearOrder β] (key : α → β) :
    ∀ (xs : List α) (x : α), pyFoldMax key x xs ∈ x :: xs := by
  intro xs
  induction xs with
  | nil => intro x; simp [pyFoldMax]
  | cons y ys ih =>
    intro x
    have step : pyFoldMax key x (y :: ys) =
        pyFoldMax key (if key x < key y then y else x) ys := rfl
    rw [step]
    rcases List.mem_cons.mp (ih (if key x < key y then y else x)) with h | h
    · rw [h]
      split <;> simp
    · simp [List.mem_cons_of_mem, h]

theorem pyFoldMax_le {α β : Type} [LinearOrder β] (key : α → β) :
    ∀ (xs : List α) (x : α), ∀ y ∈ x :: xs, key y ≤ key (pyFoldMax key x xs) := by
  intro xs
  induction xs with
  | nil =>
    intro x y hy
    simp only [List.mem_singleton] at hy
    simp [hy, pyFoldMax]
  | cons z zs ih =>
    intro x y hy
    have step : pyFoldMax key x (z :: zs) =
        pyFoldMax key (if key x < key z then z else x) zs := rfl
    rw [step]
    have hzx : key x ≤ key (if key x < key z then z else x) := by
      split <;> simp_all [le_of_lt]
    have hzz : key z ≤ key (if key x < key z then z else x) := by
      split
      · simp
      · next h => exact le_of_not_lt h
    have hhead := ih (if key x < key z then z else x) _
      (List.mem_cons_self _ _)
    simp only [List.mem_cons] at hy
    rcases hy with rfl | rfl | hy
    · exact le_trans hzx hhead
    · exact le_trans hzz hhead
    · exact ih _ y (List.mem_cons_of_mem _ hy)

theorem pyFoldMax_first {α β : Type} [LinearOrder β] (key : α → β) :
    ∀ (xs : List α) (x : α), ∃ l₁ l₂,
      x :: xs = l₁ ++ pyFoldMax key x xs :: l₂ ∧
        ∀ y ∈ l₁, key y < key (pyFoldMax key x xs) := by
  intro xs
  induction xs with
  | nil => intro x; exact ⟨[], [], rfl, by simp⟩
  | cons z zs ih =>
    intro x
    have step : pyFoldMax key x (z :: zs) =
        pyFoldMax key (if key x < key z then z else x) zs := rfl
    by_cases hxz : key x < key z
    · obtain ⟨l₁, l₂, hsplit, hlt⟩ := ih z
      rw [step, if_pos hxz]
      refine ⟨x :: l₁, l₂, by rw [List.cons_append, ← hsplit], ?_⟩
      intro y hy
      rcases List.mem_cons.mp hy with rfl | hy
      · exact lt_of_lt_of_le hxz (pyFoldMax_le key zs z z (List.mem_cons_self _ _))
      · exact hlt y hy
    · obtain ⟨l₁, l₂, hsplit, hlt⟩ := ih x
      rw [step, if_neg hxz]
      match l₁, hsplit with
      | [], hsplit =>
        have hx : pyFoldMax key x zs = x := (List.cons.injEq _ _ _ _).mp hsplit |>.1.symm
        exact ⟨[], z :: zs, by rw [hx]; rfl, by simp⟩
      | x₁ :: l₁, hsplit =>
        have hx1 : x₁ = x := ((List.cons.injEq _ _ _ _).mp hsplit).1.symm
        have hrest : zs = l₁ ++ pyFoldMax key x zs :: l₂ :=
          ((List.cons.injEq _ _ _ _).mp hsplit).2
        refine ⟨x :: z :: l₁, l₂, by rw [List.cons_append, List.cons_append, ← hrest], ?_⟩
        intro y hy
        have hxlt : key x < key (pyFoldMax key x zs) := by
          have := hlt x₁ (List.mem_cons_self _ _)
          rwa [hx1] at this
        rcases List.mem_cons.mp hy with rfl | hy
        · exact hxlt
        · rcases List.mem_cons.mp hy with rfl | hy
          · exact lt_of_le_of_lt (le_of_not_lt hxz) hxlt
          · exact hlt y (List.mem_cons_of_mem _ hy)

theorem orderedInsert_congr {α : Type} (r₁ r₂ : α → α → Prop)
    [DecidableRel r₁] [DecidableRel r₂] (x : α) :
    ∀ l : List α, (∀ y ∈ l, (r₁ x y ↔ r₂ x y)) →
      l.orderedInsert r₁ x = l.orderedInsert r₂ x := by
  intro l
  induction l with
  | nil => intro _; rfl
  | cons y ys ih =>
    intro h
    simp only [List.orderedInsert]
    by_cases hy : r₁ x y
    · rw [if_pos hy, if_pos ((h y (List.mem_cons_self _ _)).mp hy)]
    · rw [if_neg hy, if_neg (fun h2 => hy ((h y (List.mem_cons_self _ _)).mpr h2)),
        ih fun z hz => h z (List.mem_cons_of_mem _ hz)]

theorem insertionSort_congr {α : Type} (r₁ r₂ : α → α → Prop)
    [DecidableRel r₁] [DecidableRel r₂] :
    ∀ l : List α, l.Pairwise (fun a b => r₁ a b ↔ r₂ a b) →
      l.insertionSort r₁ = l.insertionSort r₂ := by
  intro l
  induction l with
  | nil => intro _; rfl
  | cons x xs ih =>
    intro h
    obtain ⟨hx, hxs⟩ := List.pairwise_cons.mp h
    simp only [List.insertionSort]
    rw [ih hxs]
    exact orderedInsert_congr r₁ r₂ x _ fun y hy =>
      hx y ((List.mem_insertionSort r₂).mp hy)

instance (query_hash : Nat) : IsTotal Fingerprint (stage1SpecLe query_hash) :=
  ⟨fun a b => by
    unfold stage1SpecLe
    rcases lt_trichotomy (hamming_distance query_hash a.phash)
        (hamming_distance query_hash b.phash) with h | h | h
    · exact Or.inl (Or.inl h)
    · rcases le_total a.id b.id with hid | hid
      · exact Or.inl (Or.inr ⟨h, hid⟩)
      · exact Or.inr (Or.inr ⟨h.symm, hid⟩)
    · exact Or.inr (Or.inl h)⟩

instance (query_hash : Nat) : IsTrans Fingerprint (stage1SpecLe query_hash) :=
  ⟨fun a b c hab hbc => by
    unfold stage1SpecLe at hab hbc ⊢
    rcases hab with h1 | ⟨h1, hid1⟩ <;> rcases hbc with h2 | ⟨h2, hid2⟩
    · exact Or.inl (lt_trans h1 h2)
    · exact Or.inl (by rw [← h2]; exact h1)
    · exact Or.inl (by rw [h1]; exact h2)
    · exact Or.inr ⟨h1.trans h2, le_trans hid1 hid2⟩⟩

instance (query_hash : Nat) : IsAntisymm Fingerprint (stage1SpecLt query_hash) :=
  ⟨fun a b h1 h2 => by
    exfalso
    unfold stage1SpecLt at h1 h2
    rcases h1 with h1 | ⟨e1, i1⟩ <;> rcases h2 with h2 | ⟨e2, i2⟩
    · exact lt_asymm h1 h2
    · exact absurd h1 (by rw [e2]; exact lt_irrefl _)
    · exact absurd h2 (by rw [e1]; exact lt_irrefl _)
    · exact lt_asymm i1 i2⟩

/-- The Stage-1 result of the source coincides with the specified order
(ascending distance, ties by ascending id) whenever the stored rows carry
strictly increasing ids — which rowid order guarantees: the stable sort by
distance then breaks ties exactly by ascending id. -/
theorem search_eq_specSearch (db : DB) (query_hash max_distance limit : Nat)
    (h : db.fingerprints.Pairwise fun a b => a.id < b.id) :
    search_by_phash db query_hash max_distance limit =
      specSearch db query_hash max_distance limit := by
  unfold search_by_phash specSearch
  congr 1
  have hf : (db.fingerprints.filter fun f =>
      decide (hamming_distance query_hash f.phash ≤ max_distance)).Pairwise
      (fun a b => a.id < b.id) :=
    h.sublist (List.filter_sublist _)
  apply insertionSort_congr
  refine hf.imp ?_
  intro a b hid
  constructor
  · intro hle
    rcases lt_or_eq_of_le hle with hlt | heq
    · exact Or.inl hlt
    · exact Or.inr ⟨heq, le_of_lt hid⟩
  · rintro (hlt | ⟨heq, _⟩)
    · exact le_of_lt hlt
    · exact le_of_eq heq

/-- A Stage-1-sorted list whose elements come from a strictly-id-increasing
row list is strictly sorted (its elements have pairwise distinct ids). -/
theorem pairwise_stage1SpecLt (query_hash : Nat) {l s : List Fingerprint}
    (hperm : List.Perm s l) (hids : l.Pairwise fun a b => a.id < b.id)
    (hs : s.Pairwise (stage1SpecLe query_hash)) :
    s.Pairwise (stage1SpecLt query_hash) := by
  have hne : s.Pairwise fun a b => a.id ≠ b.id := by
    have h2 : l.Pairwise fun a b => a.id ≠ b.id := hids.imp fun h => ne_of_lt h
    exact (hperm.pairwise_iff fun h => Ne.symm h).mpr h2
  refine (hs.and hne).imp ?_
  rintro a b ⟨hle, hne⟩
  rcases hle with h | ⟨he, hi⟩
  · exact Or.inl h
  · exact Or.inr ⟨he, lt_of_le_of_ne hi hne⟩

/-- Raising the Stage-1 distance budget appends the newly admitted rows
strictly after the previously admitted ones in the sorted order. -/
theorem sort_filter_threshold_append (query_hash : Nat) (l : List Fingerprint)
    (hids : l.Pairwise fun a b => a.id < b.id) (t t' : Nat) (htt : t ≤ t') :
    (l.filter fun f =>
        decide (hamming_distance query_hash f.phash ≤ t')).insertionSort
      (stage1SpecLe query_hash) =
    (l.filter fun f =>
        decide (hamming_distance query_hash f.phash ≤ t)).insertionSort
      (stage1SpecLe query_hash) ++
    ((l.filter fun f => decide (hamming_distance query_hash f.phash ≤ t')).filter
        fun f => !(decide (hamming_distance query_hash f.phash ≤ t))).insertionSort
      (stage1SpecLe query_hash) := by
  have hstep1 : (l.filter fun f =>
      decide (hamming_distance query_hash f.phash ≤ t')).filter
        (fun f => decide (hamming_distance query_hash f.phash ≤ t)) =
      l.filter fun f => decide (hamming_distance query_hash f.phash ≤ t) := by
    rw [List.filter_filter]
    apply List.filter_congr
    intro f _
    by_cases hf : hamming_distance query_hash f.phash ≤ t
    · simp [hf, le_trans hf htt]
    · simp [hf]
  have hperm12 : List.Perm
      ((l.filter fun f => decide (hamming_distance query_hash f.phash ≤ t)) ++
        ((l.filter fun f => decide (hamming_distance query_hash f.phash ≤ t')).filter
          fun f => !(decide (hamming_distance query_hash f.phash ≤ t))))
      (l.filter fun f => decide (hamming_distance query_hash f.phash ≤ t')) := by
    have hbase := List.filter_append_perm
      (fun f => decide (hamming_distance query_hash f.phash ≤ t))
      (l.filter fun f => decide (hamming_distance query_hash f.phash ≤ t'))
    rwa [hstep1] at hbase
  have hpermS : List.Perm
      ((l.filter fun f =>
          decide (hamming_distance query_hash f.phash ≤ t')).insertionSort
        (stage1SpecLe query_hash))
      (((l.filter fun f =>
          decide (hamming_distance query_hash f.phash ≤ t)).insertionSort
        (stage1SpecLe query_hash)) ++
       (((l.filter fun f => decide (hamming_distance query_hash f.phash ≤ t')).filter
          fun f => !(decide (hamming_distance query_hash f.phash ≤ t))).insertionSort
        (stage1SpecLe query_hash))) := by
    have h1 := List.perm_insertionSort (stage1SpecLe query_hash)
      (l.filter fun f => decide (hamming_distance query_hash f.phash ≤ t'))
    have h2 := (List.perm_insertionSort (stage1SpecLe query_hash)
      (l.filter fun f => decide (hamming_distance query_hash f.phash ≤ t))).append
      (List.perm_insertionSort (stage1SpecLe query_hash)
        ((l.filter fun f => decide (hamming_distance query_hash f.phash ≤ t')).filter
          fun f => !(decide (hamming_distance query_hash f.phash ≤ t))))
    exact h1.trans (hperm12.symm.trans h2.symm)
  have hSlt := pairwise_stage1SpecLt query_hash
    (List.perm_insertionSort (stage1SpecLe query_hash) _)
    (hids.sublist (List.filter_sublist _))
    (List.sorted_insertionSort (stage1SpecLe query_hash)
      (l.filter fun f => decide (hamming_distance query_hash f.phash ≤ t')))
  have hAlt := pairwise_stage1SpecLt query_hash
    (List.perm_insertionSort (stage1SpecLe query_hash) _)
    (hids.sublist (List.filter_sublist _))
    (List.sorted_insertionSort (stage1SpecLe query_hash)
      (l.filter fun f => decide (hamming_distance query_hash f.phash ≤ t)))
  have hBlt := pairwise_stage1SpecLt query_hash
    (List.perm_insertionSort (stage1SpecLe query_hash) _)
    (hids.sublist ((List.filter_sublist _).trans (List.filter_sublist _)))
    (List.sorted_insertionSort (stage1SpecLe query_hash)
      ((l.filter fun f => decide (hamming_distance query_hash f.phash ≤ t')).filter
        fun f => !(decide (hamming_distance query_hash f.phash ≤ t))))
  have hABlt : (((l.filter fun f =>
        decide (hamming_distance query_hash f.phash ≤ t)).insertionSort
      (stage1SpecLe query_hash)) ++
      (((l.filter fun f => decide (hamming_distance query_hash f.phash ≤ t')).filter
        fun f => !(decide (hamming_distance query_hash f.phash ≤ t))).insertionSort
      (stage1SpecLe query_hash))).Pairwise (stage1SpecLt query_hash) := by
    rw [List.pairwise_append]
    refine ⟨hAlt, hBlt, ?_⟩
    intro a ha b hb
    have haf := (List.mem_insertionSort (stage1SpecLe query_hash)).mp ha
    have hbf := (List.mem_insertionSort (stage1SpecLe query_hash)).mp hb
    have hat : hamming_distance query_hash a.phash ≤ t := by
      have := (List.mem_filter.mp haf).2
      simpa using this
    have hbt : ¬hamming_distance query_hash b.phash ≤ t := by
      have := (List.mem_filter.mp hbf).2
      simpa using this
    exact Or.inl (lt_of_le_of_lt hat (lt_of_not_le hbt))
  exact List.eq_of_perm_of_sorted hpermS hSlt hABlt

instance : IsTotal FrameMatch simDescLe := ⟨fun a b => le_total b.sim a.sim⟩

instance : IsTrans FrameMatch simDescLe := ⟨fun _ _ _ hab hbc => le_trans hbc hab⟩

/-- Stability of the Stage-2 descending insertion step: for each
similarity value, insertion keeps that value's entries in their original
relative order (the inserted element goes in front of later equal keys,
never behind earlier strictly-greater ones). -/
theorem filter_sim_orderedInsert (s : WithBot ℚ) (x : FrameMatch) :
    ∀ l : List FrameMatch,
      ((l.orderedInsert simDescLe x).filter fun m => m.sim == s) =
        ((x :: l).filter fun m => m.sim == s) := by
  intro l
  induction l with
  | nil => rfl
  | cons y ys ih =>
    by_cases hxy : simDescLe x y
    · rw [List.orderedInsert_of_le _ _ hxy]
    · have hlt : x.sim < y.sim := lt_of_not_le (by simpa [simDescLe] using hxy)
      have hins : (y :: ys).orderedInsert simDescLe x =
          y :: ys.orderedInsert simDescLe x := by
        simp [List.orderedInsert, hxy]
      rw [hins]
      by_cases hpx : x.sim = s
      · have hpy : y.sim ≠ s := hpx ▸ ne_of_gt hlt
        simp [List.filter_cons, hpx, hpy, ih]
      · simp [List.filter_cons, hpx, ih]

/-- Stability of the Stage-2 descending sort: for each similarity value,
the sorted list keeps that value's entries in input order. -/
theorem filter_sim_insertionSort (s : WithBot ℚ) :
    ∀ l : List FrameMatch,
      ((l.insertionSort simDescLe).filter fun m => m.sim == s) =
        l.filter fun m => m.sim == s := by
  intro l
  induction l with
  | nil => rfl
  | cons x xs ih =>
    have hstep : (x :: xs).insertionSort simDescLe =
        (xs.insertionSort simDescLe).orderedInsert simDescLe x := rfl
    rw [hstep, filter_sim_orderedInsert s x (xs.insertionSort simDescLe),
      List.filter_cons, List.filter_cons, ih]

/-- When no similarity key is NaN, the Stage-2 result is exactly the
stable descending insertion sort of the per-candidate scores (the NaN-free
case is the only one in which the source's Timsort is a sort at all). -/
theorem verify_with_cnn_no_nan (db : DB) (candidates : List Fingerprint)
    (query_features : List ℚ) (scored out : List FrameMatch)
    (hscore : scoreAll db query_features candidates = some scored)
    (hnn : ∀ m ∈ scored, m.sim ≠ ⊥)
    (hv : verify_with_cnn db candidates query_features = some out) :
    out = scored.insertionSort simDescLe := by
  unfold verify_with_cnn at hv
  rw [hscore] at hv
  have hany : (scored.any fun m => decide (m.sim = ⊥)) = false := by
    rw [List.any_eq_false]
    intro m hm
    simpa using hnn m hm
  rw [Option.map_some', hany] at hv
  simpa using hv.symm

/-- A successful Stage-2 verification scores every candidate: one output
element per input candidate. -/
theorem verify_with_cnn_length (db : DB) (candidates : List Fingerprint)
    (query_features : List ℚ) (out : List FrameMatch)
    (h : verify_with_cnn db candidates query_features = some out) :
    out.length = candidates.length := by
  unfold verify_with_cnn at h
  obtain ⟨rs, hrs, hmap⟩ := Option.map_eq_some'.mp h
  have hlen := scoreAll_length db query_features candidates rs hrs
  rw [← hmap]
  split
  · exact hlen
  · rw [List.length_insertionSort]
    exact hlen

/-- The match returned by `_match_frame` passed the Stage-2 floor. -/
theorem matchFrame_sim_ge (db : DB) (pt : Nat) (ct : ℚ) (q : QueryFP)
    (m : FrameMatch) (h : matchFrame db pt ct q = some (some m)) :
    ((simEnc ct : ℚ) : WithBot ℚ) ≤ m.sim := by
  unfold matchFrame at h
  by_cases hc : (search_by_phash db q.phash pt 50).isEmpty
  · rw [if_pos hc] at h
    exact absurd (Option.some_inj.mp h) (by simp)
  · rw [if_neg hc] at h
    obtain ⟨ms, _, hmap⟩ := Option.map_eq_some'.mp h
    have hmem : m ∈ ms.filter fun m' =>
        decide (((simEnc ct : ℚ) : WithBot ℚ) ≤ m'.sim) := by
      exact List.mem_of_mem_head? (by rw [hmap]; rfl)
    have := (List.mem_filter.mp hmem).2
    exact of_decide_eq_true this

/-- Representation correctness of the similarity encoding: away from zero
magnitudes, the encoded similarity decodes to the textbook cosine value
`uv / (|u| * |v|)`. -/
theorem cosineSimEnc_spec (u v : List ℚ) (h : dotQ u u * dotQ v v ≠ 0) :
    ∃ e : ℚ, cosineSimEnc u v = ((e : ℚ) : WithBot ℚ) ∧
      decodeSim e = ((dotQ u v : ℚ) : ℝ) / (magR u * magR v) := by
  have huu : 0 ≤ dotQ u u := dotQ_self_nonneg u
  have hvv : 0 ≤ dotQ v v := dotQ_self_nonneg v
  have hd : 0 < dotQ u u * dotQ v v := lt_of_le_of_ne (mul_nonneg huu hvv) (Ne.symm h)
  have hdR : (0 : ℝ) < ((dotQ u u * dotQ v v : ℚ) : ℝ) := by exact_mod_cast hd
  have hmag : magR u * magR v = Real.sqrt ((dotQ u u * dotQ v v : ℚ) : ℝ) := by
    unfold magR
    rw [Rat.cast_mul, Real.sqrt_mul (by exact_mod_cast huu)]
  by_cases hneg : dotQ u v < 0
  · refine ⟨-(dotQ u v ^ 2 / (dotQ u u * dotQ v v)), ?_, ?_⟩
    · unfold cosineSimEnc
      rw [if_neg h, if_pos hneg]
    · have hne : dotQ u v ≠ 0 := ne_of_lt hneg
      have hsq : 0 < dotQ u v ^ 2 := by positivity
      have he : -(dotQ u v ^ 2 / (dotQ u u * dotQ v v)) < 0 := by
        exact neg_neg_iff_pos.mpr (div_pos hsq hd)
      unfold decodeSim
      rw [if_pos (by exact_mod_cast he)]
      have hcast : (-(-(dotQ u v ^ 2 / (dotQ u u * dotQ v v)) : ℚ) : ℝ) =
          ((dotQ u v : ℚ) : ℝ) ^ 2 / ((dotQ u u * dotQ v v : ℚ) : ℝ) := by
        push_cast
        ring
      rw [hcast, Real.sqrt_div (sq_nonneg _), Real.sqrt_sq_eq_abs,
        abs_of_neg (by exact_mod_cast hneg), hmag]
      field_simp
  · refine ⟨dotQ u v ^ 2 / (dotQ u u * dotQ v v), ?_, ?_⟩
    · unfold cosineSimEnc
      rw [if_neg h, if_neg hneg]
    · have hnn : 0 ≤ dotQ u v := le_of_not_lt hneg
      have he : ¬(dotQ u v ^ 2 / (dotQ u u * dotQ v v) : ℚ) < 0 :=
        not_lt.mpr (div_nonneg (sq_nonneg _) hd.le)
      unfold decodeSim
      rw [if_neg (by exact_mod_cast he)]
      have hcast : ((dotQ u v ^ 2 / (dotQ u u * dotQ v v) : ℚ) : ℝ) =
          ((dotQ u v : ℚ) : ℝ) ^ 2 / ((dotQ u u * dotQ v v : ℚ) : ℝ) := by
        push_cast
        ring
      rw [hcast, Real.sqrt_div (sq_nonneg _), Real.sqrt_sq_eq_abs,
        abs_of_nonneg (by exact_mod_cast hnn), hmag]

theorem fingerprintRows_length (media_id : Nat) :
    ∀ (fps : List (ℚ × Nat × List ℚ)) (base idx : Nat),
      (fingerprintRows base media_id idx fps).length = fps.length := by
  intro fps
  induction fps with
  | nil => intro base idx; rfl
  | cons p rest ih =>
    intro base idx
    obtain ⟨ts, ph, fv⟩ := p
    simp [fingerprintRows, ih]

theorem fingerprintRows_mem (media_id : Nat) :
    ∀ (fps : List (ℚ × Nat × List ℚ)) (base idx : Nat) (r : Fingerprint),
      r ∈ fingerprintRows base media_id idx fps →
      r.media_id = media_id ∧ (r.timestamp, r.phash, r.features) ∈ fps := by
  intro fps
  induction fps with
  | nil => intro base idx r h; exact absurd h (List.not_mem_nil r)
  | cons p rest ih =>
    intro base idx r h
    obtain ⟨ts, ph, fv⟩ := p
    rcases List.mem_cons.mp h with rfl | h
    · exact ⟨rfl, List.mem_cons_self _ _⟩
    · obtain ⟨h1, h2⟩ := ih (base + 1) (idx + 1) r h
      exact ⟨h1, List.mem_cons_of_mem _ h2⟩

/-- C3 (amended): `add_fingerprints` performs no schema validation at all —
every fingerprint of the batch is inserted unconditionally (the store
grows by exactly the batch size), whatever its hash or vector dimension;
each inserted row carries the given media id and one batch triple. -/
theorem c3_add_fingerprints_unvalidated (db : DB) (media_id : Nat)
    (fps : List (ℚ × Nat × List ℚ)) :
    (add_fingerprints db media_id fps).fingerprints.length =
      db.fingerprints.length + fps.length ∧
    ∀ r ∈ (add_fingerprints db media_id fps).fingerprints,
      r ∈ db.fingerprints ∨
        (r.media_id = media_id ∧ (r.timestamp, r.phash, r.features) ∈ fps) := by
  constructor
  · simp [add_fingerprints, fingerprintRows_length]
  · intro r hr
    rcases List.mem_append.mp hr with h | h
    · exact Or.inl h
    · exact Or.inr (fingerprintRows_mem media_id fps db.next_fp_id 0 r h)

/-- C3 (counterexample): a store whose established vector dimension is 2
accepts a batch containing a dimension-3 vector — the batch is inserted
(store grows from 1 to 2 rows, the mismatched row included) instead of
failing with `SchemaMismatchError` and leaving the store unchanged. -/
theorem c3_counterexample :
    (add_fingerprints
        (add_fingerprints
          (add_media emptyDB "A" Option.none Option.none Option.none).1 1
          [(0, 5, [1, 2])]) 1
        [(1, 5, [1, 2, 3])]).fingerprints.map (fun f => f.features.length) = [2, 3] ∧
    (add_fingerprints
        (add_media emptyDB "A" Option.none Option.none Option.none).1 1
        [(0, 5, [1, 2])]).fingerprints.length = 1 := by
  constructor
  · simp [add_fingerprints, add_media, emptyDB, fingerprintRows]
  · simp [add_fingerprints, add_media, emptyDB, fingerprintRows]

/-- C7: for every query hash, Stage-1 search returns exactly the stored
fingerprints within `max_distance`, ascending by Hamming distance with
ties broken by ascending fingerprint id, truncated to `limit` (given that
the rows carry strictly increasing ids, as rowid order guarantees); when
no stored hash is within budget — in particular on an empty store — the
result is empty, and no error is raised (the function is total). -/
theorem c7_stage1_contract (db : DB) (query_hash max_distance limit : Nat)
    (h : db.fingerprints.Pairwise fun a b => a.id < b.id) :
    search_by_phash db query_hash max_distance limit =
      specSearch db query_hash max_distance limit ∧
    ((∀ f ∈ db.fingerprints, max_distance < hamming_distance query_hash f.phash) →
      search_by_phash db query_hash max_distance limit = []) := by
  refine ⟨search_eq_specSearch db query_hash max_distance limit h, fun hout => ?_⟩
  unfold search_by_phash
  have hnil : (db.fingerprints.filter fun f =>
      decide (hamming_distance query_hash f.phash ≤ max_distance)) = [] := by
    rw [List.filter_eq_nil_iff]
    intro f hf
    simpa using not_le.mpr (hout f hf)
  rw [hnil]
  simp

/-- Two-row store with strictly increasing ids, used as concrete input for
the Stage-1 theorems. -/
def fpW1 : Fingerprint := ⟨1, 1, 0, 0, 5, []⟩

/-- Second row of the concrete Stage-1 store (Hamming distance 2 from
hash 5). -/
def fpW2 : Fingerprint := ⟨2, 1, 1, 1, 6, []⟩

/-- Concrete store for the Stage-1 theorems. -/
def dbW : DB := ⟨[⟨1, "A", Option.none, Option.none, Option.none⟩], [fpW1, fpW2], 2, 3⟩

/-- Witness for C7 at a concrete store, query and budget. -/
theorem c7_stage1_contract_witness :
    search_by_phash dbW 5 2 50 = specSearch dbW 5 2 50 :=
  (c7_stage1_contract dbW 5 2 50 (by decide)).1

/-- C9: Stage-1 search is monotonic in `max_distance` — every candidate
returned at threshold `t` is also returned at any threshold `t' ≥ t`, even
with truncation to `limit`, because the newly admitted rows sort strictly
after the previously returned ones. -/
theorem c9_stage1_monotone (db : DB) (query_hash limit t t' : Nat)
    (hids : db.fingerprints.Pairwise fun a b => a.id < b.id)
    (htt : t ≤ t') (c : Fingerprint)
    (hc : c ∈ search_by_phash db query_hash t limit) :
    c ∈ search_by_phash db query_hash t' limit := by
  rw [search_eq_specSearch db query_hash t limit hids] at hc
  rw [search_eq_specSearch db query_hash t' limit hids]
  unfold specSearch at hc ⊢
  rw [sort_filter_threshold_append query_hash db.fingerprints hids t t' htt,
    List.take_append_eq_append_take]
  exact List.mem_append_left _ hc

/-- Witness for C9: the distance-0 hit at threshold 0 is still returned at
threshold 2. -/
theorem c9_stage1_monotone_witness : fpW1 ∈ search_by_phash dbW 5 2 50 :=
  c9_stage1_monotone dbW 5 50 0 2 (by decide) (by decide) fpW1
    (List.mem_singleton.mpr rfl)

theorem titlesInOrder_cons (m : FrameMatch) (ms' : List FrameMatch) :
    titlesInOrder (m :: ms') =
      m.title :: dedupFirst ((ms'.map fun x => x.title).filter fun s => s != m.title) := by
  unfold titlesInOrder
  rw [List.map_cons, dedupFirst]

theorem winningTitle_spec (ms : List FrameMatch) (t : String) (ts : List String)
    (h : titlesInOrder ms = t :: ts) :
    winningTitle ms ∈ titlesInOrder ms ∧
      ∀ s ∈ titlesInOrder ms, countTitle ms s ≤ countTitle ms (winningTitle ms) := by
  have hw : winningTitle ms = pyFoldMax (countTitle ms) t ts := by
    unfold winningTitle
    rw [h]
  rw [hw, h]
  exact ⟨pyFoldMax_mem _ ts t, fun s hs => pyFoldMax_le _ ts t s hs⟩

/-- Frame match of the C1 scenario: title "A", similarity 0.81. -/
def mA1 : FrameMatch := ⟨1, "A", 10, ((simEnc (81 / 100) : ℚ) : WithBot ℚ)⟩

/-- Frame match of the C1 scenario: title "A", similarity 0.85. -/
def mA2 : FrameMatch := ⟨1, "A", 20, ((simEnc (85 / 100) : ℚ) : WithBot ℚ)⟩

/-- Frame match of the C1 scenario: title "A", similarity 0.90. -/
def mA3 : FrameMatch := ⟨1, "A", 30, ((simEnc (90 / 100) : ℚ) : WithBot ℚ)⟩

/-- Frame match of the C1 scenario: title "B", similarity 0.99. -/
def mB1 : FrameMatch := ⟨2, "B", 40, ((simEnc (99 / 100) : ℚ) : WithBot ℚ)⟩

/-- Frame match of the C1 scenario: second "B" frame, similarity 0.99. -/
def mB2 : FrameMatch := ⟨2, "B", 50, ((simEnc (99 / 100) : ℚ) : WithBot ℚ)⟩

/-- The five per-frame matches of the C1 scenario: three "A" frames with
similarities 0.81, 0.85, 0.90 and two "B" frames with similarity 0.99. -/
def c1Matches : List FrameMatch := [mA1, mA2, mA3, mB1, mB2]

/-- C1: aggregating five frame matches — three for "A" (similarities 0.81,
0.85, 0.90) and two for "B" (similarities 0.99, 0.99) — in any collection
order yields title "A", representative similarity 0.90 and
`frames_matched = 5`: the strict 3-to-2 majority beats the higher "B"
similarities, and the representative is the best "A" frame.  (Similarity
values are in the `simEnc` representation.) -/
theorem c1_majority_aggregation (db : DB) (s2 : Nat) (ms : List FrameMatch)
    (hperm : List.Perm ms c1Matches) :
    (aggregate db 5 0 s2 ms).matched = true ∧
    (aggregate db 5 0 s2 ms).title = some "A" ∧
    (aggregate db 5 0 s2 ms).confidence = some ((simEnc (90 / 100) : ℚ) : WithBot ℚ) ∧
    (aggregate db 5 0 s2 ms).frames_matched = 5 := by
  have hcountA : countTitle ms "A" = 3 := by
    unfold countTitle
    rw [hperm.countP_eq]
    simp [c1Matches, mA1, mA2, mA3, mB1, mB2]
  have hcountB : countTitle ms "B" = 2 := by
    unfold countTitle
    rw [hperm.countP_eq]
    simp [c1Matches, mA1, mA2, mA3, mB1, mB2]
  have htitles : List.Perm (ms.map fun m => m.title) (c1Matches.map fun m => m.title) :=
    hperm.map _
  have hne : ms ≠ [] := by
    intro h
    rw [h] at hperm
    simpa [c1Matches] using hperm.length_eq
  obtain ⟨m0, ms', hms⟩ := List.exists_cons_of_ne_nil hne
  obtain ⟨hwmem, hwmax⟩ := winningTitle_spec ms m0.title
    (dedupFirst ((ms'.map fun x => x.title).filter fun s => s != m0.title))
    (by rw [hms, titlesInOrder_cons])
  have hwmap : winningTitle ms ∈ ms.map (fun m => m.title) :=
    (mem_dedupFirst _ _).mp hwmem
  have hw2 : winningTitle ms ∈ c1Matches.map (fun m => m.title) :=
    htitles.mem_iff.mp hwmap
  have hwA : winningTitle ms = "A" := by
    rcases (by simpa [c1Matches, mA1, mA2, mA3, mB1, mB2] using hw2 :
        winningTitle ms = "A" ∨ winningTitle ms = "B") with h | h
    · exact h
    · exfalso
      have hAmem : "A" ∈ titlesInOrder ms :=
        (mem_dedupFirst _ _).mpr (htitles.mem_iff.mpr (by simp [c1Matches, mA1]))
      have hle := hwmax "A" hAmem
      rw [h, hcountB, hcountA] at hle
      omega
  have hfil : List.Perm (ms.filter fun m => m.title == "A") [mA1, mA2, mA3] := by
    have hstep := hperm.filter (fun m => m.title == "A")
    rwa [show c1Matches.filter (fun m => m.title == "A") = [mA1, mA2, mA3] by
      simp [c1Matches, mA1, mA2, mA3, mB1, mB2]] at hstep
  rcases hfs : (ms.filter fun m => m.title == "A") with _ | ⟨f0, fs⟩
  · rw [hfs] at hfil
    simpa using hfil.length_eq
  · rw [hfs] at hfil
    have hmem3 : pyFoldMax (fun fm => fm.sim) f0 fs ∈ [mA1, mA2, mA3] :=
      hfil.mem_iff.mp (pyFoldMax_mem _ fs f0)
    have hA3mem : mA3 ∈ f0 :: fs := hfil.mem_iff.mpr (by simp)
    have hle3 : mA3.sim ≤ (pyFoldMax (fun fm => fm.sim) f0 fs).sim :=
      pyFoldMax_le _ fs f0 mA3 hA3mem
    have hres3 : pyFoldMax (fun fm => fm.sim) f0 fs = mA3 := by
      rcases (by simpa using hmem3 :
          pyFoldMax (fun fm => fm.sim) f0 fs = mA1 ∨
            pyFoldMax (fun fm => fm.sim) f0 fs = mA2 ∨
            pyFoldMax (fun fm => fm.sim) f0 fs = mA3) with h | h | h
      · rw [h] at hle3
        exfalso
        simp only [mA1, mA3, WithBot.coe_le_coe, simEnc] at hle3
        norm_num at hle3
      · rw [h] at hle3
        exfalso
        simp only [mA2, mA3, WithBot.coe_le_coe, simEnc] at hle3
        norm_num at hle3
      · exact h
    have hbest : bestForTitle ms "A" = some mA3 := by
      unfold bestForTitle
      rw [hfs]
      exact congrArg some hres3
    have hagg : aggregate db 5 0 s2 ms =
        { matched := true
          title := some mA3.title
          year := getYear db mA3.media_id
          timestamp := some mA3.timestamp
          confidence := some mA3.sim
          match_type := get_match_type mA3.sim
          frames_sampled := 5
          frames_matched := ms.length
          stage1_candidates := 0
          stage2_candidates := s2 } := by
      unfold aggregate
      rw [hwA, hbest]
    rw [hagg]
    refine ⟨rfl, rfl, rfl, ?_⟩
    have := hperm.length_eq
    simpa [c1Matches] using this

/-- Witness for C1 at the collection order of the scenario itself. -/
theorem c1_majority_aggregation_witness :
    (aggregate emptyDB 5 0 5 c1Matches).matched = true ∧
    (aggregate emptyDB 5 0 5 c1Matches).title = some "A" ∧
    (aggregate emptyDB 5 0 5 c1Matches).confidence =
      some ((simEnc (90 / 100) : ℚ) : WithBot ℚ) ∧
    (aggregate emptyDB 5 0 5 c1Matches).frames_matched = 5 :=
  c1_majority_aggregation emptyDB 5 c1Matches (List.Perm.refl _)

/-- C5 (amended): on a vote-count tie the winner is decided by first
encounter, not by best similarity — the winning title is always a title of
maximal vote count, and every title listed before it in first-occurrence
order has a strictly smaller vote count (so among tied titles the one whose
first matching frame comes earliest wins, regardless of similarities). -/
theorem c5_first_encounter_tiebreak (ms : List FrameMatch) (hne : ms ≠ []) :
    winningTitle ms ∈ titlesInOrder ms ∧
    (∀ t ∈ titlesInOrder ms, countTitle ms t ≤ countTitle ms (winningTitle ms)) ∧
    ∃ l₁ l₂, titlesInOrder ms = l₁ ++ winningTitle ms :: l₂ ∧
      ∀ t ∈ l₁, countTitle ms t < countTitle ms (winningTitle ms) := by
  obtain ⟨m0, ms', hms⟩ := List.exists_cons_of_ne_nil hne
  have hsh : titlesInOrder ms =
      m0.title :: dedupFirst ((ms'.map fun x => x.title).filter fun s => s != m0.title) := by
    rw [hms, titlesInOrder_cons]
  obtain ⟨hmem, hmax⟩ := winningTitle_spec ms _ _ hsh
  have hw : winningTitle ms = pyFoldMax (countTitle ms) m0.title
      (dedupFirst ((ms'.map fun x => x.title).filter fun s => s != m0.title)) := by
    unfold winningTitle
    rw [hsh]
  obtain ⟨l₁, l₂, hsplit, hlt⟩ := pyFoldMax_first (countTitle ms)
    (dedupFirst ((ms'.map fun x => x.title).filter fun s => s != m0.title)) m0.title
  refine ⟨hmem, hmax, l₁, l₂, ?_, ?_⟩
  · rw [hsh, hw]
    exact hsplit
  · intro t ht
    rw [hw]
    exact hlt t ht

/-- Witness for C5 (amended) on a concrete two-frame tie. -/
theorem c5_first_encounter_tiebreak_witness :
    winningTitle [mA1, mB1] ∈ titlesInOrder [mA1, mB1] ∧
    (∀ t ∈ titlesInOrder [mA1, mB1],
      countTitle [mA1, mB1] t ≤ countTitle [mA1, mB1] (winningTitle [mA1, mB1])) ∧
    ∃ l₁ l₂, titlesInOrder [mA1, mB1] = l₁ ++ winningTitle [mA1, mB1] :: l₂ ∧
      ∀ t ∈ l₁, countTitle [mA1, mB1] t <
        countTitle [mA1, mB1] (winningTitle [mA1, mB1]) :=
  c5_first_encounter_tiebreak [mA1, mB1] (List.cons_ne_nil _ _)

/-- Tied-vote frame match with the lower similarity (0.7), frame order
first. -/
def mTieA : FrameMatch := ⟨1, "A", 0, ((simEnc (70 / 100) : ℚ) : WithBot ℚ)⟩

/-- Tied-vote frame match with the higher similarity (0.99), frame order
second. -/
def mTieB : FrameMatch := ⟨2, "B", 1, ((simEnc (99 / 100) : ℚ) : WithBot ℚ)⟩

/-- C5 (counterexample): with one "A" frame (similarity 0.7, sampled first)
and one "B" frame (similarity 0.99, sampled second), the vote counts are
tied and "B" has the strictly better single-frame similarity, yet the
source elects "A" — the first-encountered title — contradicting the
claimed best-similarity tie-break. -/
theorem c5_counterexample :
    countTitle [mTieA, mTieB] "A" = countTitle [mTieA, mTieB] "B" ∧
    mTieA.sim < mTieB.sim ∧
    winningTitle [mTieA, mTieB] = "A" := by
  refine ⟨by simp [countTitle, mTieA, mTieB], ?_, ?_⟩
  · simp only [mTieA, mTieB, WithBot.coe_lt_coe, simEnc]
    norm_num
  · simp [winningTitle, titlesInOrder, dedupFirst, pyFoldMax, countTitle, mTieA, mTieB]

/-- C4 (amended): when the container opens but no sampled frame produces a
match — frames that fail to read counting as no-match, without aborting the
call — the result is `matched = false` with `frames_matched = 0` and
`frames_sampled` equal to the requested frame count, and no exception is
raised; the same holds for a readable image whose frame does not match
(`frames_sampled = 1`).  An unreadable image or unopenable video instead
returns the bare `matched = false` result, whose `frames_sampled` is 0, not
the requested count (see the counterexample). -/
theorem c4_no_match_result :
    (∀ (db : DB) (pt : Nat) (ct : ℚ) (frames : List (Option QueryFP)) (n : Nat),
      (∀ o ∈ frames, ∀ q, o = some q → matchFrame db pt ct q = some Option.none) →
      identifyVideo db pt ct (some frames) n =
        some { matched := false, frames_sampled := n, frames_matched := 0 }) ∧
    (∀ (db : DB) (pt : Nat) (ct : ℚ) (q : QueryFP),
      matchFrame db pt ct q = some Option.none →
      identifyImage db pt ct (some q) =
        some { matched := false, frames_sampled := 1, frames_matched := 0 }) := by
  constructor
  · intro db pt ct frames n h
    have hstep : identifyVideo db pt ct (some frames) n =
        (videoLoop db pt ct frames).map fun r =>
          if r.1.isEmpty then
            { matched := false, frames_sampled := n, frames_matched := 0 }
          else aggregate db n 0 r.2 r.1 := rfl
    rw [hstep, videoLoop_no_match db pt ct frames h]
    rfl
  · intro db pt ct q h
    have hstep : identifyImage db pt ct (some q) =
        (matchFrame db pt ct q).map fun mo =>
          match mo with
          | Option.none =>
            { matched := false, frames_sampled := 1, frames_matched := 0 }
          | some m =>
            { matched := true
              title := some m.title
              year := getYear db m.media_id
              timestamp := some m.timestamp
              confidence := some m.sim
              match_type := get_match_type m.sim
              frames_sampled := 1
              frames_matched := 1 } := rfl
    rw [hstep, h]
    rfl

/-- Witness for C4 (amended): an empty store matches nothing; a two-frame
video with one unreadable frame and a readable image both return the
no-match result with the requested frame counts. -/
theorem c4_no_match_result_witness :
    identifyVideo emptyDB 15 (6 / 10) (some [some ⟨0, []⟩, Option.none]) 2 =
      some { matched := false, frames_sampled := 2, frames_matched := 0 } ∧
    identifyImage emptyDB 15 (6 / 10) (some ⟨0, []⟩) =
      some { matched := false, frames_sampled := 1, frames_matched := 0 } :=
  ⟨c4_no_match_result.1 emptyDB 15 (6 / 10) [some ⟨0, []⟩, Option.none] 2
      (by
        intro o ho q hq
        rcases List.mem_cons.mp ho with rfl | ho
        · cases Option.some_inj.mp hq
          rfl
        · rcases List.mem_cons.mp ho with rfl | ho
          · exact absurd hq (by simp)
          · exact absurd ho (List.not_mem_nil o)),
    c4_no_match_result.2 emptyDB 15 (6 / 10) ⟨0, []⟩ rfl⟩

/-- C4 (counterexample): an unreadable image (`cv2.imread` returning
`None`) yields the bare `RecognitionResult(matched=False)`, whose
`frames_sampled` is 0 — not the requested frame count 1 that the claim
demands for a single-image identify call. -/
theorem c4_counterexample :
    identifyImage emptyDB 15 (6 / 10) Option.none = some { matched := false } ∧
    ({ matched := false } : RecognitionResult).frames_sampled = 0 :=
  ⟨rfl, rfl⟩

/-- Query fingerprint of the C2 failing input (hash 5, matching features). -/
def qC2 : QueryFP := ⟨5, [1, 1]⟩

/-- Store of the C2 failing input: one media item "A" with two fingerprints
identical to the query — so the single sampled frame has 2 Stage-1
candidates and 2 Stage-2 surviving matches. -/
def dbC2 : DB :=
  add_fingerprints (add_media emptyDB "A" Option.none Option.none Option.none).1 1
    [(0, 5, [1, 1]), (7, 5, [1, 1])]

/-- The single sampled (readable) frame of the C2 failing input. -/
def framesC2 : List (Option QueryFP) := [some qC2]

/-- C2 (code bug, evaluated at the failing input): the sampled frame has 2
Stage-1 candidates and 2 Stage-2 surviving matches, so the claimed sums are
2 and 2 — but the source reports `stage1_candidates = 0` (its
`total_stage1` accumulator is initialised and never updated) and
`stage2_candidates = 1` (it counts matched frames, not surviving matches).
`frames_matched = 1` is correct. -/
theorem c2_stage_counts_bug :
    (identifyVideo dbC2 15 (6 / 10) (some framesC2) 1).map
        (fun r => (r.stage1_candidates, r.stage2_candidates, r.frames_matched)) =
      some (0, 1, 1) ∧
    specStage1Sum dbC2 15 framesC2 = 2 ∧
    specStage2Sum dbC2 15 (6 / 10) framesC2 = 2 := by
  refine ⟨?_, ?_, ?_⟩
  · norm_num [identifyVideo, videoLoop, matchFrame, search_by_phash, verify_with_cnn,
      scoreAll, scoreCandidate, getTitle, getYear, cosineSimEnc, simEnc, dotQ, dbC2, qC2,
      framesC2, add_fingerprints, fingerprintRows, add_media, emptyDB, hamming_distance,
      aggregate, winningTitle, titlesInOrder, dedupFirst, countTitle, bestForTitle,
      pyFoldMax, get_match_type, simDescLe, List.insertionSort, List.orderedInsert]
  · norm_num [specStage1Sum, specStage1Count, search_by_phash, dbC2, qC2, framesC2,
      add_fingerprints, fingerprintRows, add_media, emptyDB, hamming_distance]
  · norm_num [specStage2Sum, specStage2Count, search_by_phash, verify_with_cnn,
      scoreAll, scoreCandidate, getTitle, cosineSimEnc, simEnc, dotQ, dbC2, qC2, framesC2,
      add_fingerprints, fingerprintRows, add_media, emptyDB, hamming_distance,
      simDescLe, List.insertionSort, List.orderedInsert]

/-- C6 (amended): the Stage-2 similarity equals the dot product divided by
the product of magnitudes whenever both magnitudes are nonzero (the encoded
value decodes to exactly that real number) — but on a zero-magnitude input
the source computes `0.0 / 0.0`, producing NaN (modelled `⊥`), not the
claimed 0: the computation is not total in the specified sense. -/
theorem c6_similarity_totality (u v : List ℚ) :
    (dotQ u u * dotQ v v ≠ 0 →
      ∃ e : ℚ, cosineSimEnc u v = ((e : ℚ) : WithBot ℚ) ∧
        decodeSim e = ((dotQ u v : ℚ) : ℝ) / (magR u * magR v)) ∧
    (dotQ u u * dotQ v v = 0 → cosineSimEnc u v = ⊥) :=
  ⟨cosineSimEnc_spec u v, fun h => by
    unfold cosineSimEnc
    rw [if_pos h]⟩

/-- Witness for C6 (amended) at two unit vectors: similarity exactly 1. -/
theorem c6_similarity_totality_witness :
    cosineSimEnc [(1 : ℚ)] [1] = ((1 : ℚ) : WithBot ℚ) ∧
    decodeSim 1 = ((dotQ [(1 : ℚ)] [1] : ℚ) : ℝ) / (magR [1] * magR [1]) := by
  obtain ⟨e, he, hd⟩ := (c6_similarity_totality [(1 : ℚ)] [1]).1 (by norm_num [dotQ])
  have hc : cosineSimEnc [(1 : ℚ)] [1] = ((1 : ℚ) : WithBot ℚ) := by
    norm_num [cosineSimEnc, dotQ]
  have he1 : e = 1 := by
    rw [hc] at he
    exact_mod_cast he.symm
  exact ⟨hc, he1 ▸ hd⟩

/-- C6 (counterexample): for the zero vector `[0]` against `[1]` the
source's similarity is NaN (`⊥`), not the similarity value 0 that the
claim demands (and that the spec-side definition produces). -/
theorem c6_counterexample :
    cosineSimEnc [(0 : ℚ)] [1] = ⊥ ∧
    (⊥ : WithBot ℚ) ≠ ((0 : ℚ) : WithBot ℚ) ∧
    specCosineSim [(0 : ℚ)] [1] = 0 := by
  refine ⟨by norm_num [cosineSimEnc, dotQ], by simp, ?_⟩
  have hmag : magR [(0 : ℚ)] = 0 := by
    norm_num [magR, dotQ]
  unfold specCosineSim
  rw [if_pos (Or.inl hmag)]

/-- Media row "A" of the Stage-2 tie counterexample. -/
def mediaCA : Media := ⟨1, "A", Option.none, Option.none, Option.none⟩

/-- Media row "B" of the Stage-2 tie counterexample. -/
def mediaCB : Media := ⟨2, "B", Option.none, Option.none, Option.none⟩

/-- Fingerprint of media "A" (id 1), features identical to the query. -/
def fpCA : Fingerprint := ⟨1, 1, 0, 0, 5, [1]⟩

/-- Fingerprint of media "B" (id 2), features identical to the query. -/
def fpCB : Fingerprint := ⟨2, 2, 0, 0, 5, [1]⟩

/-- Store of the Stage-2 tie counterexample. -/
def dbC8 : DB := ⟨[mediaCA, mediaCB], [fpCA, fpCB], 3, 3⟩

/-- C8 (counterexample): on the candidate list `[fpCB, fpCA]` (ids 2 then
1) with a query equal to both stored vectors, both similarities are 1 and
the source keeps the tied results in input order — id 2 before id 1 —
whereas the claimed order (ties by ascending `fingerprint_id`) puts id 1
first: the outputs differ. -/
theorem c8_counterexample :
    verify_with_cnn dbC8 [fpCB, fpCA] [1] ≠ specVerifySorted dbC8 [fpCB, fpCA] [1] := by
  have h1 : verify_with_cnn dbC8 [fpCB, fpCA] [1] =
      some [⟨2, "B", 0, ((1 : ℚ) : WithBot ℚ)⟩, ⟨1, "A", 0, ((1 : ℚ) : WithBot ℚ)⟩] := by
    norm_num [verify_with_cnn, scoreAll, scoreCandidate, getTitle, cosineSimEnc, dotQ,
      dbC8, fpCA, fpCB, mediaCA, mediaCB, simDescLe, List.insertionSort,
      List.orderedInsert]
  have h2 : specVerifySorted dbC8 [fpCB, fpCA] [1] =
      some [⟨1, "A", 0, ((1 : ℚ) : WithBot ℚ)⟩, ⟨2, "B", 0, ((1 : ℚ) : WithBot ℚ)⟩] := by
    norm_num [specVerifySorted, scoreAll, scoreCandidate, getTitle, cosineSimEnc, dotQ,
      dbC8, fpCA, fpCB, mediaCA, mediaCB, stage2SpecLe, List.insertionSort,
      List.orderedInsert]
  rw [h1, h2]
  simp [FrameMatch.mk.injEq]

/-- C8 (amended): whenever no candidate similarity is NaN (no
zero-magnitude vector involved — with a NaN key the source's Timsort
guarantees no order at all), the Stage-2 output is sorted descending by
similarity and ties are kept in input-candidate order: for each similarity
value, the output lists that value's entries exactly as the per-candidate
scored list does — not re-broken by ascending fingerprint id.  The
similarity floor is enforced on the frame recognizer's side: every match
`_match_frame` returns is at or above `cnn_threshold`. -/
theorem c8_stage2_order_and_floor :
    (∀ (db : DB) (candidates : List Fingerprint) (query_features : List ℚ)
        (scored out : List FrameMatch),
      scoreAll db query_features candidates = some scored →
      (∀ m ∈ scored, m.sim ≠ ⊥) →
      verify_with_cnn db candidates query_features = some out →
      (out.Pairwise fun a b => b.sim ≤ a.sim) ∧
        ∀ s : WithBot ℚ,
          (out.filter fun m => m.sim == s) = scored.filter fun m => m.sim == s) ∧
    (∀ (db : DB) (pt : Nat) (ct : ℚ) (q : QueryFP) (m : FrameMatch),
      matchFrame db pt ct q = some (some m) →
      ((simEnc ct : ℚ) : WithBot ℚ) ≤ m.sim) := by
  constructor
  · intro db candidates query_features scored out hscore hnn hv
    rw [verify_with_cnn_no_nan db candidates query_features scored out hscore hnn hv]
    constructor
    · exact (List.sorted_insertionSort simDescLe scored).imp fun hab => hab
    · intro s
      exact filter_sim_insertionSort s scored
  · exact matchFrame_sim_ge

/-- Witness for C8 (amended) on the concrete tie store: the two tied
results stay in candidate order (id 2 first), each similarity class of the
output equals that of the scored list, and the returned frame match passed
the floor. -/
theorem c8_stage2_order_and_floor_witness :
    ([(⟨2, "B", 0, ((1 : ℚ) : WithBot ℚ)⟩ : FrameMatch),
        ⟨1, "A", 0, ((1 : ℚ) : WithBot ℚ)⟩].Pairwise fun a b => b.sim ≤ a.sim) ∧
    (∀ s : WithBot ℚ,
      ([(⟨2, "B", 0, ((1 : ℚ) : WithBot ℚ)⟩ : FrameMatch),
          ⟨1, "A", 0, ((1 : ℚ) : WithBot ℚ)⟩].filter fun m => m.sim == s) =
        [(⟨2, "B", 0, ((1 : ℚ) : WithBot ℚ)⟩ : FrameMatch),
          ⟨1, "A", 0, ((1 : ℚ) : WithBot ℚ)⟩].filter fun m => m.sim == s) ∧
    ((simEnc (6 / 10) : ℚ) : WithBot ℚ) ≤
      ((⟨1, "A", 0, ((1 : ℚ) : WithBot ℚ)⟩ : FrameMatch)).sim := by
  have h1 := c8_stage2_order_and_floor.1 dbC8 [fpCB, fpCA] [1]
    [⟨2, "B", 0, ((1 : ℚ) : WithBot ℚ)⟩, ⟨1, "A", 0, ((1 : ℚ) : WithBot ℚ)⟩]
    [⟨2, "B", 0, ((1 : ℚ) : WithBot ℚ)⟩, ⟨1, "A", 0, ((1 : ℚ) : WithBot ℚ)⟩]
    (by norm_num [scoreAll, scoreCandidate, getTitle, cosineSimEnc, dotQ,
      dbC8, fpCA, fpCB, mediaCA, mediaCB])
    (by
      intro m hm
      rcases List.mem_cons.mp hm with rfl | hm
      · simp
      · rcases List.mem_cons.mp hm with rfl | hm
        · simp
        · exact absurd hm (List.not_mem_nil m))
    (by norm_num [verify_with_cnn, scoreAll, scoreCandidate, getTitle, cosineSimEnc,
      dotQ, dbC8, fpCA, fpCB, mediaCA, mediaCB, simDescLe, List.insertionSort,
      List.orderedInsert])
  refine ⟨h1.1, h1.2, ?_⟩
  refine c8_stage2_order_and_floor.2 dbC8 15 (6 / 10) ⟨5, [1]⟩ _ ?_
  norm_num [matchFrame, search_by_phash, verify_with_cnn, scoreAll, scoreCandidate,
    getTitle, cosineSimEnc, simEnc, dotQ, dbC8, fpCA, fpCB, mediaCA, mediaCB,
    hamming_distance, simDescLe, List.insertionSort, List.orderedInsert]

/-- C10: the store-level Stage-2 operation applies no similarity floor of
its own — for a non-empty candidate list (of matching dimension) it returns
exactly one scored result per candidate — and the min-similarity filtering
happens in the caller `_match_frame`, after `verify_with_cnn` has returned
its full sorted output. -/
theorem c10_verify_scores_all (db : DB) (candidates : List Fingerprint)
    (query_features : List ℚ) (out : List FrameMatch)
    (hne : candidates ≠ [])
    (hdim : ∀ c ∈ candidates, c.features.length = query_features.length)
    (hv : verify_with_cnn db candidates query_features = some out) :
    out.length = candidates.length ∧
    ∀ (pt : Nat) (ct : ℚ) (q : QueryFP),
      search_by_phash db q.phash pt 50 = candidates →
      q.features = query_features →
      matchFrame db pt ct q =
        some ((out.filter fun m =>
          decide (((simEnc ct : ℚ) : WithBot ℚ) ≤ m.sim)).head?) := by
  refine ⟨verify_with_cnn_length db candidates query_features out hv, ?_⟩
  intro pt ct q hsearch hq
  unfold matchFrame
  rw [hsearch, hq]
  dsimp only
  rw [if_neg (by simp [List.isEmpty_iff, hne]), hv]
  rfl

/-- One-row store for the C10 witness. -/
def dbC10 : DB := ⟨[mediaCA], [fpCA], 2, 2⟩

/-- Witness for C10 on a one-candidate store: one scored result, and the
frame recognizer filters it after verification. -/
theorem c10_verify_scores_all_witness :
    ([(⟨1, "A", 0, ((1 : ℚ) : WithBot ℚ)⟩ : FrameMatch)].length = [fpCA].length) ∧
    matchFrame dbC10 15 (6 / 10) ⟨5, [1]⟩ =
      some (([(⟨1, "A", 0, ((1 : ℚ) : WithBot ℚ)⟩ : FrameMatch)].filter fun m =>
        decide (((simEnc (6 / 10) : ℚ) : WithBot ℚ) ≤ m.sim)).head?) := by
  have h := c10_verify_scores_all dbC10 [fpCA] [1]
    [⟨1, "A", 0, ((1 : ℚ) : WithBot ℚ)⟩]
    (List.cons_ne_nil _ _)
    (by
      intro c hc
      rw [List.mem_singleton.mp hc]
      rfl)
    (by
      norm_num [verify_with_cnn, scoreAll, scoreCandidate, getTitle, cosineSimEnc, dotQ,
        dbC10, fpCA, mediaCA, simDescLe, List.insertionSort, List.orderedInsert])
  refine ⟨h.1, h.2 15 (6 / 10) ⟨5, [1]⟩ ?_ rfl⟩
  norm_num [search_by_phash, dbC10, fpCA, hamming_distance, List.insertionSort,
    List.orderedInsert]
